import Mathlib

/-!
Verification development for the WhatMail repository.

Shallow embedding of the core operations of `whatsapp_client.py`
(`WhatsAppClient`), `email_processor_optimized.py`
(`ImprovedEmailProcessor`) and `whatmail_app.py` (`WhatMailApp`),
together with theorems settling the frozen claims about them.

Modelling conventions:
* Python strings are modelled as `String` / `List Char`.
* Browser interactions are modelled by an explicit environment record
  describing what each probe of the page would observe, and by an action
  trace listing the browser-driving operations the code performs.
* Exceptions raised by library calls are modelled as explicit boolean
  outcomes in the environment; `try/except` control flow is translated
  into the corresponding case split.
-/

namespace WhatMail

/-- Model of `WhatsAppClient._wait_for_element` (whatsapp_client.py lines
154-172).  Each selector probe is summarised by what the inner
`WebDriverWait.until` call would deliver within its timeout:
`none` means the wait raised `TimeoutException` (the loop continues with
the next selector), `some (h, d)` means an element `h` was delivered,
with `d` the value of `element.is_displayed()`.  When `is_displayed()` is
false the code neither returns nor re-waits: the `for` loop simply
advances to the next selector.  The `clickable` flag of the source only
selects which expected-condition is used inside the wait, so it is part
of how the environment produces each probe outcome.  Timing is
abstracted away; only the returned value is modelled. -/
def waitForElement {H : Type} : List (Option (H × Bool)) → Option H
  | [] => none
  | none :: rest => waitForElement rest
  | some (h, d) :: rest => if d then some h else waitForElement rest

/-- Every descriptor probe in the environment timed out (raised
`TimeoutException`), i.e. none of them ever delivered an element. -/
def allTimedOut {H : Type} (env : List (Option (H × Bool))) : Bool :=
  env.all Option.isNone

/-- Some descriptor probe delivered a displayed element. -/
def hasDisplayedMatch {H : Type} (env : List (Option (H × Bool))) : Bool :=
  env.any fun p =>
    match p with
    | some (_, true) => true
    | _ => false

/-- Characters stripped by Python's default `str.strip()`: exactly the
code points for which `str.isspace()` holds. -/
def isPySpace (c : Char) : Bool :=
  let n := c.toNat
  (9 ≤ n && n ≤ 13) || (28 ≤ n && n ≤ 31) || n = 32 || n = 0x85 ||
    n = 0xA0 || n = 0x1680 || (0x2000 ≤ n && n ≤ 0x200A) || n = 0x2028 ||
    n = 0x2029 || n = 0x202F || n = 0x205F || n = 0x3000

/-- Python `s.strip()` on a list of characters: drop whitespace from the
front, then from the back. -/
def pyStripL (s : List Char) : List Char :=
  List.rdropWhile isPySpace (s.dropWhile isPySpace)

/-- Python `s.strip()` on `String`. -/
def pyStrip (s : String) : String :=
  String.mk (pyStripL s.data)

/-- The emoji replacement table of `WhatsAppClient._clean_message_text`
(whatsapp_client.py lines 84-88), in Python dict insertion order. -/
def emojiReplacements : List (Char × List Char) :=
  [(Char.ofNat 0x1F9EA, "[TEST]".data),
   (Char.ofNat 0x1F916, "[BOT]".data),
   (Char.ofNat 0x2705, "[OK]".data),
   (Char.ofNat 0x274C, "[ERROR]".data),
   (Char.ofNat 0x1F4E7, "[EMAIL]".data),
   (Char.ofNat 0x1F4F1, "[PHONE]".data),
   (Char.ofNat 0x1F6A8, "[URGENT]".data),
   (Char.ofNat 0x1F4AC, "[MSG]".data),
   (Char.ofNat 0x1F514, "[ALERT]".data),
   (Char.ofNat 0x23F0, "[TIME]".data),
   (Char.ofNat 0x1F4CA, "[DATA]".data),
   (Char.ofNat 0x1F3AF, "[TARGET]".data)]

/-- Python `cleaned.replace(emoji, replacement)` for a single-character
pattern: every occurrence of the character `k` is replaced by `r`. -/
def replaceChar (k : Char) (r : List Char) (s : List Char) : List Char :=
  s.flatMap fun c => if c = k then r else [c]

/-- The `for emoji, replacement in emoji_replacements.items()` loop of
`_clean_message_text`: apply the single-character replacements in table
order. -/
def applyReplacements : List (Char × List Char) → List Char → List Char
  | [], s => s
  | (k, r) :: tl, s => applyReplacements tl (replaceChar k r s)

/-- The BMP filter loop of `_clean_message_text` (lines 95-100): keep
characters with code point at most `0xFFFF`, replace the rest by
a question mark. -/
def toBMP (s : List Char) : List Char :=
  s.map fun c => if c.toNat ≤ 0xFFFF then c else '?'

/-- Model of `WhatsAppClient._clean_message_text` (whatsapp_client.py
lines 78-102): early return for the empty message, then emoji
replacement, BMP filtering and final `strip()`. -/
def cleanMessageText (s : List Char) : List Char :=
  if s = [] then [] else pyStripL (toBMP (applyReplacements emojiReplacements s))

/-- String-level wrapper of `cleanMessageText`. -/
def cleanString (s : String) : String :=
  String.mk (cleanMessageText s.data)

/-- Decides whether the list `p` is an initial segment of `l`. -/
def isSegStart : List Char → List Char → Bool
  | [], _ => true
  | _ :: _, [] => false
  | c :: p, d :: l => c = d && isSegStart p l

/-- Decides whether `p` occurs as a contiguous segment of `l`. -/
def occursIn : List Char → List Char → Bool
  | p, [] => isSegStart p []
  | p, c :: t => isSegStart p (c :: t) || occursIn p t

/-- Vocabulary from the spec (not from the source, which performs no
such check): the surface `surface` shows a recognizable (nonempty)
prefix of the text `text`, i.e. some nonempty initial segment of `text`
occurs in `surface`. -/
def showsStartOf (surface text : List Char) : Bool :=
  (List.range text.length).any fun k => occursIn (text.take (k + 1)) surface

/-- Splits a character list at its first comma, as Python
`s.split(",", 1)` does when a comma is present; `none` when there is no
comma (in which case the Python call returns a one-element list). -/
def splitFirstComma : List Char → Option (List Char × List Char)
  | [] => none
  | c :: rest =>
    if c = ',' then some ([], rest)
    else (splitFirstComma rest).map fun p => (c :: p.1, p.2)

/-- One iteration of the parsing loop of
`ImprovedEmailProcessor._load_processed_ids` (email_processor_optimized.py
lines 100-106): `parts = line.strip().split(",", 1)`, and the id is
`parts[1]` when the split produced at least two parts. -/
def parseLedgerLine (line : String) : Option String :=
  (splitFirstComma (pyStripL line.data)).map fun p => String.mk p.2

/-- Model of `ImprovedEmailProcessor._load_processed_ids`: parse every
line of the ledger file and collect the ids in a set (modelled as a
list, with membership as the set operation used by the source). -/
def loadProcessedIds (lines : List String) : List String :=
  List.foldr
    (fun line acc =>
      match parseLedgerLine line with
      | some i => i :: acc
      | none => acc)
    [] lines

/-- The state owned by the dedup ledger: the lines of
`logs/processed_emails.txt` (each without its trailing newline) and the
in-memory `processed_ids` set. -/
structure LedgerState where
  fileLines : List String
  processedIds : List String
deriving DecidableEq

/-- Model of `ImprovedEmailProcessor._mark_processed` (lines 110-117):
append `f"{timestamp},{email_id}"` as a new ledger line and add the id
to the in-memory set.  The timestamp `ts` stands for
`datetime.now().isoformat()`; file IO is assumed not to fail. -/
def markProcessed (ts id : String) (st : LedgerState) : LedgerState :=
  { fileLines := st.fileLines ++ [ts ++ "," ++ id]
    processedIds := id :: st.processedIds }

/-- A sequence of further `_mark_processed` calls (timestamp, id). -/
def applyMarks : List (String × String) → LedgerState → LedgerState
  | [], st => st
  | (ts, id) :: ops, st => applyMarks ops (markProcessed ts id st)

/-- Python `l[-n:]` as used in `message_ids[-self.max_emails_per_run:]`
(line 318): the last `n` elements, or the whole list when `n = 0`. -/
def lastSlice (n : Nat) (l : List (String × Bool)) : List (String × Bool) :=
  if n = 0 then l else l.drop (l.length - n)

/-- The per-item loop of `ImprovedEmailProcessor.process_emails`
(email_processor_optimized.py lines 321-392), over a batch of items
already in iteration order.  Each batch element is an id paired with
the result `whatsapp_client.send_to_saved_number` would return for it.
An id already in the in-memory set is skipped (`continue`, line 329-331);
otherwise the send is invoked: on success the id is marked processed and
the loop continues (the inter-message `stop_flag.wait(delay)` returns
false because the stop flag is never set in this model), on failure the
loop `break`s (line 388).  Returns the final ledger state and the trace
of send invocations, in order, each paired with its outcome. -/
def processCycle (ts : String) (st : LedgerState) :
    List (String × Bool) → LedgerState × List (String × Bool)
  | [] => (st, [])
  | (id, ok) :: rest =>
    if id ∈ st.processedIds then processCycle ts st rest
    else if ok then
      let r := processCycle ts (markProcessed ts id st) rest
      (r.1, (id, true) :: r.2)
    else (st, [(id, false)])

/-- Model of one `process_emails` call: the fetched unseen ids are
limited to the last `maxN` (line 318) and iterated in `reversed` order
(line 321), then processed by the per-item loop. -/
def processEmails (ts : String) (maxN : Nat) (st : LedgerState)
    (msgIds : List (String × Bool)) : LedgerState × List (String × Bool) :=
  processCycle ts st (lastSlice maxN msgIds).reverse

/-- Several monitoring cycles, each one `process_emails` call on one
fetched id list (whatmail_app.py `_monitoring_worker`, line 166).
Returns the final ledger state and the per-cycle send traces. -/
def monitorRun (ts : String) (maxN : Nat) (st : LedgerState) :
    List (List (String × Bool)) → LedgerState × List (List (String × Bool))
  | [] => (st, [])
  | ids :: more =>
    let c := processEmails ts maxN st ids
    let r := monitorRun ts maxN c.1 more
    (r.1, c.2 :: r.2)

/-- The id `id` is never sent again after a successful send, within one
send trace: wherever `(id, true)` occurs, no later trace entry concerns
`id`. -/
def noResend (id : String) : List (String × Bool) → Prop
  | [] => True
  | (i, ok) :: rest =>
    (i = id ∧ ok = true → id ∉ rest.map Prod.fst) ∧ noResend id rest

/-- Outcome of the primary text injection
(`message_input.send_keys(clean_message)`, whatsapp_client.py line 298):
either it completes, leaving some visible content on the input surface,
or it raises. -/
inductive InjectResult
  | ok (surface : String)
  | raises
deriving DecidableEq

/-- Browser-driving operations performed by `send_message`, recorded as
a trace. -/
inductive Action
  | navigate
  | injectPrimary (text : String)
  | injectJS (text : String)
  | clickSend
  | pressEnter
  | scanContainers (n : Nat)
deriving DecidableEq

/-- The action is the JavaScript content-assignment fallback. -/
def Action.isJS : Action → Bool
  | .injectJS _ => true
  | _ => false

/-- The action submits the message (send-button click or ENTER key). -/
def Action.isSubmit : Action → Bool
  | .clickSend => true
  | .pressEnter => true
  | _ => false

/-- Environment for one iteration of the retry loop of
`WhatsAppClient.send_message` (whatsapp_client.py lines 225-406): what
the page and the driver would do at each probe of this attempt.
`errorShown` is whether one of the error-indicator selectors (lines
236-248) finds a displayed element; `inputProbe` and `buttonProbe` feed
`_wait_for_element` for the message-box and send-button selector sets;
`primaryInject` is the outcome of `send_keys`; `jsInjectOk` is whether
`execute_script` of the fallback completes; `buttonClickOk` and
`enterOk` are whether the send-button click and the ENTER keystroke
complete; `containers` are the texts of the message containers the
post-send scan (lines 379-385) would find. -/
structure AttemptEnv where
  errorShown : Bool
  inputProbe : List (Option (Nat × Bool))
  primaryInject : InjectResult
  jsInjectOk : Bool
  buttonProbe : List (Option (Nat × Bool))
  buttonClickOk : Bool
  enterOk : Bool
  containers : List String

/-- Result of one attempt: `hardFail` returns `False` immediately
(visible error element), `softFail` moves on to the next attempt
(`continue`, or falling out of the loop on the last attempt), `sent`
returns `True`. -/
inductive AttemptOutcome
  | hardFail
  | softFail
  | sent
deriving DecidableEq

/-- The submit-and-verify tail of one `send_message` attempt (lines
339-392): resolve the send button; if found, click it (on a click
exception fall back to ENTER); if not found, use ENTER directly; if
nothing submitted, the attempt soft-fails.  After a submit, the message
containers are scanned (`find_elements`, lines 379-385) purely for a
debug log, and the attempt returns success unconditionally (line 392:
the code comments `Consider it successful` and returns `True`). -/
def submitPhase (e : AttemptEnv) (acts : List Action) :
    AttemptOutcome × List Action :=
  match waitForElement e.buttonProbe with
  | some _ =>
    if e.buttonClickOk then
      (.sent, acts ++ [.clickSend, .scanContainers e.containers.length])
    else if e.enterOk then
      (.sent, acts ++ [.clickSend, .pressEnter, .scanContainers e.containers.length])
    else (.softFail, acts ++ [.clickSend, .pressEnter])
  | none =>
    if e.enterOk then
      (.sent, acts ++ [.pressEnter, .scanContainers e.containers.length])
    else (.softFail, acts ++ [.pressEnter])

/-- One iteration of the retry loop of `send_message` (lines 225-392):
navigate to the chat URL; return `False` if an error indicator is
displayed; resolve the message input (soft-fail when not found); type
the message with `send_keys`, falling back to the JavaScript injection
only when `send_keys` raises (lines 296-333) — the surface content is
never inspected; then submit and scan.  The clear step (lines 280-291)
swallows its exceptions and changes no modelled state. -/
def runAttempt (clean : String) (e : AttemptEnv) :
    AttemptOutcome × List Action :=
  if e.errorShown then (.hardFail, [.navigate])
  else
    match waitForElement e.inputProbe with
    | none => (.softFail, [.navigate])
    | some _ =>
      match e.primaryInject with
      | .ok _ => submitPhase e [.navigate, .injectPrimary clean]
      | .raises =>
        if e.jsInjectOk then
          submitPhase e [.navigate, .injectPrimary clean, .injectJS clean]
        else
          (.softFail, [.navigate, .injectPrimary clean, .injectJS clean])

/-- The retry loop of `send_message`: one environment per attempt (the
list length is `max_retries`, 3 by default).  `hardFail` and `sent`
stop the loop; `softFail` falls through to the next attempt, and the
loop returns `False` when attempts run out. -/
def sendLoop (clean : String) : List AttemptEnv → Bool × List Action
  | [] => (false, [])
  | e :: rest =>
    let a := runAttempt clean e
    match a.1 with
    | .sent => (true, a.2)
    | .hardFail => (false, a.2)
    | .softFail =>
      let r := sendLoop clean rest
      (r.1, a.2 ++ r.2)

/-- Model of `WhatsAppClient.send_message` (whatsapp_client.py lines
211-408): the guard clauses of lines 213-219 return `False` with no
browser action when the session is not active, the driver is gone, or
the phone number or message is empty; otherwise the message is cleaned
once and the retry loop runs. -/
def sendMessage (sessionActive hasDriver : Bool) (phone msg : String)
    (envs : List AttemptEnv) : Bool × List Action :=
  if !sessionActive || !hasDriver then (false, [])
  else if phone = "" || msg = "" then (false, [])
  else sendLoop (cleanString msg) envs

/-- Environment of one iteration of `WhatMailApp._monitoring_worker`
(whatmail_app.py lines 151-183): whether `is_session_active()` reports
the session alive, whether a reconnect `start_session()` would succeed,
whether the cycle body raises an unexpected exception after the session
check, and whether some dispatch inside `process_emails` failed (which
the worker cannot observe: `process_emails` catches everything and
returns a count). -/
structure CycleEnv where
  sessionOk : Bool
  reconnectOk : Bool
  raisesUnexpected : Bool
  dispatchFailed : Bool
deriving DecidableEq

/-- Default `CHECK_INTERVAL` of `_monitoring_worker` (line 154). -/
def defaultCheckInterval : Nat := 300

/-- The fixed delay of the worker's exception handler (line 177:
`self.stop_event.wait(60)`). -/
def errorRetryDelay : Nat := 60

/-- Delay imposed after one worker iteration, in seconds: `none` means
the loop `break`s (failed reconnect, line 163) and monitoring stops with
no further cycle; otherwise the worker waits `checkInterval` (line 170),
except that an unexpected exception is answered by the fixed
`errorRetryDelay` wait of the `except` branch (line 177).  A cycle in
which a dispatch failed but nothing raised takes the normal wait. -/
def workerStep (checkInterval : Nat) (e : CycleEnv) : Option Nat :=
  if !e.sessionOk && !e.reconnectOk then none
  else if e.raisesUnexpected then some errorRetryDelay
  else some checkInterval

/-- The session-relevant fields of a `WhatsAppClient`: whether
`self.driver` is set and the `self.session_active` flag. -/
structure ClientState where
  hasDriver : Bool
  sessionActive : Bool
deriving DecidableEq

/-- Browser teardown operation of `stop_session`. -/
inductive StopAction
  | quitDriver
deriving DecidableEq

/-- Model of `WhatsAppClient.stop_session` (whatsapp_client.py lines
431-441): `driver.quit()` is attempted only when a driver exists and may
raise (`quitRaises`), but the exception is swallowed and the `finally`
block always clears the driver reference and the active flag.  Returns
the new state and the teardown actions issued. -/
def stopSession (st : ClientState) (quitRaises : Bool) :
    ClientState × List StopAction :=
  ({ hasDriver := false, sessionActive := false },
   if st.hasDriver then [StopAction.quitDriver] else [])

/-- Concrete attempt environment: no error indicator, the input surface
is found at once, the primary keystroke injection completes but leaves
the surface empty, and the send button is found and clicks cleanly with
no message containers present afterwards. -/
def primaryLeftEmptyEnv : AttemptEnv :=
  { errorShown := false
    inputProbe := [some (0, true)]
    primaryInject := .ok ""
    jsInjectOk := true
    buttonProbe := [some (1, true)]
    buttonClickOk := true
    enterOk := true
    containers := [] }

/-- Concrete attempt environment for the verification scan: everything
succeeds and the post-send scan finds no message container at all. -/
def verifyNoMatchEnv : AttemptEnv :=
  { errorShown := false
    inputProbe := [some (0, true)]
    primaryInject := .ok "hello"
    jsInjectOk := true
    buttonProbe := [some (1, true)]
    buttonClickOk := true
    enterOk := true
    containers := [] }

/-- Like `verifyNoMatchEnv`, but the scan finds a container whose text
contains the sent text. -/
def verifyMatchEnv : AttemptEnv :=
  { verifyNoMatchEnv with containers := ["hello there"] }

theorem waitForElement_eq_none_iff {H : Type} (env : List (Option (H × Bool))) :
    waitForElement env = none ↔ hasDisplayedMatch env = false := by
  induction env with
  | nil => simp [waitForElement, hasDisplayedMatch]
  | cons p rest ih =>
    match p with
    | none => simpa [waitForElement, hasDisplayedMatch] using ih
    | some (h, true) => simp [waitForElement, hasDisplayedMatch]
    | some (h, false) => simpa [waitForElement, hasDisplayedMatch] using ih

theorem waitForElement_first_displayed {H : Type} :
    ∀ (l₁ : List (Option (H × Bool))) (h : H) (l₂ : List (Option (H × Bool))),
      (∀ h2 : H, some (h2, true) ∉ l₁) →
      waitForElement (l₁ ++ some (h, true) :: l₂) = some h := by
  intro l₁
  induction l₁ with
  | nil => intro h l₂ _; simp [waitForElement]
  | cons p t ih =>
    intro h l₂ hnone
    match p with
    | none =>
      simpa [waitForElement] using
        ih h l₂ fun h2 hm => hnone h2 (List.mem_cons_of_mem _ hm)
    | some (h2, true) =>
      exact absurd (List.mem_cons_self _ _) (hnone h2)
    | some (h2, false) =>
      simpa [waitForElement] using
        ih h l₂ fun h3 hm => hnone h3 (List.mem_cons_of_mem _ hm)

/-- C2 (amended).  `_wait_for_element` tries the descriptors strictly in
list order and returns the first probe's element that was delivered and
displayed; it returns `None` exactly when no descriptor ever delivers a
displayed element — that is, when every descriptor either timed out or
delivered only a non-displayed element.  (The original claim, that
`None` occurs only after every descriptor has individually timed out, is
refuted separately: a descriptor that quickly delivers a present but
non-displayed element is abandoned without timing out.)  In particular
an environment containing a delivered-and-displayed probe never yields
`None`. -/
theorem waitForElement_resolution {H : Type} (env : List (Option (H × Bool))) :
    (waitForElement env = none ↔ hasDisplayedMatch env = false) ∧
    (∀ (l₁ : List (Option (H × Bool))) (h : H) l₂,
      env = l₁ ++ some (h, true) :: l₂ →
      (∀ h2 : H, some (h2, true) ∉ l₁) →
      waitForElement env = some h) :=
  ⟨waitForElement_eq_none_iff env,
   fun l₁ h l₂ he hn => he ▸ waitForElement_first_displayed l₁ h l₂ hn⟩

/-- Witness for `waitForElement_resolution`: with a first descriptor
that times out and a second that matches a displayed element, the second
element is returned. -/
theorem waitForElement_resolution_witness :
    waitForElement [none, some ((5 : Nat), true)] = some 5 :=
  (waitForElement_resolution [none, some ((5 : Nat), true)]).2 [none] 5 []
    rfl (by intro h2 hm; simp at hm)

/-- C2 counterexample.  A selector set whose single descriptor delivers
a present but non-displayed element makes `_wait_for_element` return
`None` even though no descriptor timed out, refuting the claim that
`NotFound` is returned only after every descriptor in the set has
individually timed out. -/
theorem waitForElement_none_without_timeout :
    waitForElement [some ((0 : Nat), false)] = none ∧
    allTimedOut [some ((0 : Nat), false)] = false := by
  decide

/-- C9.  `stop_session` is safe from every client state and for both
outcomes of `driver.quit()`: afterwards the driver reference is cleared
and the active flag is false, and a repeated call (again under either
quit outcome) leaves that state unchanged and performs no teardown
action. -/
theorem stopSession_idempotent (st : ClientState) (q q2 : Bool) :
    (stopSession st q).1.hasDriver = false ∧
    (stopSession st q).1.sessionActive = false ∧
    stopSession (stopSession st q).1 q2 = ((stopSession st q).1, []) := by
  simp [stopSession]

/-- C8 (amended).  The delay imposed after a worker cycle does not
depend on whether a dispatch failed inside the cycle; a cycle whose
session check and reconnect both fail ends monitoring with no backoff
delay at all; a cycle that raises an unexpected exception is followed by
the fixed 60 second retry delay; every other cycle — clean or with a
failed dispatch — is followed by the configured check interval.  With
the default 300 second interval the exception delay is therefore
strictly shorter, not longer, than the normal cadence. -/
theorem workerStep_delays (ci : Nat) (e : CycleEnv) :
    (workerStep ci { e with dispatchFailed := true } = workerStep ci e) ∧
    (e.sessionOk = false → e.reconnectOk = false → workerStep ci e = none) ∧
    (e.raisesUnexpected = true → (e.sessionOk = true ∨ e.reconnectOk = true) →
      workerStep ci e = some errorRetryDelay) ∧
    (e.raisesUnexpected = false → (e.sessionOk = true ∨ e.reconnectOk = true) →
      workerStep ci e = some ci) := by
  obtain ⟨s, r, x, d⟩ := e
  cases s <;> cases r <;> cases x <;> simp [workerStep]

/-- Witness for `workerStep_delays` at concrete cycle environments. -/
theorem workerStep_delays_witness :
    workerStep 300 (CycleEnv.mk false false true true) = none ∧
    workerStep 300 (CycleEnv.mk true true true false) = some errorRetryDelay ∧
    workerStep 300 (CycleEnv.mk true true false false) = some 300 :=
  ⟨(workerStep_delays 300 (CycleEnv.mk false false true true)).2.1 rfl rfl,
   (workerStep_delays 300 (CycleEnv.mk true true true false)).2.2.1 rfl (Or.inl rfl),
   (workerStep_delays 300 (CycleEnv.mk true true false false)).2.2.2 rfl (Or.inl rfl)⟩

/-- C8 counterexample.  A cycle in which a dispatch failed (without an
exception escaping) is followed by exactly the same `CHECK_INTERVAL`
wait as a clean cycle — not a strictly longer one — and a cycle that
raises is followed by the fixed 60 second wait, which is strictly
shorter than the default 300 second cadence. -/
theorem workerStep_backoff_not_longer :
    workerStep defaultCheckInterval (CycleEnv.mk true true false true) =
      some defaultCheckInterval ∧
    workerStep defaultCheckInterval (CycleEnv.mk true true false false) =
      some defaultCheckInterval ∧
    workerStep defaultCheckInterval (CycleEnv.mk true true true false) =
      some errorRetryDelay ∧
    errorRetryDelay < defaultCheckInterval := by
  decide

/-- C6.  `send_message` is permitted only with an active session: when
the session flag is down or the driver reference is gone it returns the
failure result immediately with an empty browser-action trace (no
navigation, no injection, no submit), and it likewise fails immediately
with no browser action for an empty destination or an empty message. -/
theorem sendMessage_guards (sessionActive hasDriver : Bool) (phone msg : String)
    (envs : List AttemptEnv) :
    (sessionActive = false ∨ hasDriver = false →
      sendMessage sessionActive hasDriver phone msg envs = (false, [])) ∧
    (phone = "" ∨ msg = "" →
      sendMessage sessionActive hasDriver phone msg envs = (false, [])) := by
  constructor
  · rintro (rfl | rfl) <;> simp [sendMessage]
  · rintro (rfl | rfl) <;> cases sessionActive <;> cases hasDriver <;>
      simp [sendMessage]

/-- Witness for `sendMessage_guards`: an inactive session, and an empty
message with an active session, each yield the immediate failure. -/
theorem sendMessage_guards_witness :
    sendMessage false true "123" "hello" [] = (false, []) ∧
    sendMessage true true "123" "" [] = (false, []) :=
  ⟨(sendMessage_guards false true "123" "hello" []).1 (Or.inl rfl),
   (sendMessage_guards true true "123" "" []).2 (Or.inr rfl)⟩

/-- C3 counterexample.  When the primary keystroke injection completes
but leaves the input surface empty (so the surface shows no recognizable
prefix of the intended text), `send_message` invokes the JavaScript
fallback zero times — not exactly once — and attempts the submit
directly, returning success. -/
theorem jsFallback_skipped_on_empty_surface :
    showsStartOf "".data (cleanString "hello").data = false ∧
    ((sendMessage true true "123" "hello" [primaryLeftEmptyEnv]).2.countP
      Action.isJS) = 0 ∧
    ((sendMessage true true "123" "hello" [primaryLeftEmptyEnv]).2.countP
      Action.isSubmit) = 1 ∧
    (sendMessage true true "123" "hello" [primaryLeftEmptyEnv]).1 = true := by
  decide

/-- C3 (amended).  Within one send attempt the JavaScript
content-assignment fallback is invoked exactly once — and always before
any submit action — precisely when the primary keystroke injection
raises an exception (and the attempt got as far as typing); when the
primary injection completes, the fallback is never invoked, regardless
of what content the injection left on the surface, because the code
never inspects the surface's content. -/
theorem jsFallback_iff_primary_raises (clean : String) (e : AttemptEnv) :
    ((runAttempt clean e).2.countP Action.isJS =
      if e.primaryInject = InjectResult.raises ∧ e.errorShown = false ∧
          waitForElement e.inputProbe ≠ none then 1 else 0) ∧
    (((runAttempt clean e).2.takeWhile fun a => !a.isSubmit).countP Action.isJS =
      (runAttempt clean e).2.countP Action.isJS) := by
  obtain ⟨err, ip, pi, js, bp, bc, en, cs⟩ := e
  unfold runAttempt submitPhase
  cases err <;> cases pi <;> cases js <;> cases bc <;> cases en <;>
    cases hw : waitForElement ip <;> cases hb : waitForElement bp <;>
    simp [Action.isJS, Action.isSubmit]

/-- C4 counterexample.  After a successful submit the scan result is
ignored: with no message container containing any prefix of the sent
text, `send_message` still returns the success result `True`, the same
value as when a matching container is present — there is no distinct
unverified outcome and the result does not depend on the scan. -/
theorem sendResult_ignores_verification :
    (sendMessage true true "123" "hello" [verifyNoMatchEnv]).1 = true ∧
    (sendMessage true true "123" "hello" [verifyMatchEnv]).1 = true ∧
    (verifyNoMatchEnv.containers.any fun c =>
      showsStartOf c.data (cleanString "hello").data) = false ∧
    (verifyMatchEnv.containers.any fun c =>
      showsStartOf c.data (cleanString "hello").data) = true := by
  decide

/-- C4 (amended).  The outcome of a send attempt does not depend on the
message-container scan: changing the containers never changes the
returned outcome, and the scan is performed exactly on the attempts that
return the success outcome — it feeds only a debug log. -/
theorem attemptOutcome_independent_of_containers (clean : String)
    (e : AttemptEnv) (cs : List String) :
    (runAttempt clean { e with containers := cs }).1 = (runAttempt clean e).1 ∧
    ((runAttempt clean e).1 = AttemptOutcome.sent ↔
      Action.scanContainers e.containers.length ∈ (runAttempt clean e).2) := by
  obtain ⟨err, ip, pi, js, bp, bc, en, cs0⟩ := e
  unfold runAttempt submitPhase
  cases err <;> cases pi <;> cases js <;> cases bc <;> cases en <;>
    cases hw : waitForElement ip <;> cases hb : waitForElement bp <;>
    simp

theorem splitFirstComma_append (ts id : List Char) (h : ',' ∉ ts) :
    splitFirstComma (ts ++ ',' :: id) = some (ts, id) := by
  induction ts with
  | nil => simp [splitFirstComma]
  | cons c t ih =>
    have hc : ¬ c = ',' := fun e => h (e ▸ List.mem_cons_self c t)
    have ht : ',' ∉ t := fun m => h (List.mem_cons_of_mem _ m)
    simp [splitFirstComma, hc, ih ht]

theorem parseLedgerLine_well_formed (ts id : String) (hc : ',' ∉ ts.data)
    (hstrip : pyStripL (ts.data ++ ',' :: id.data) = ts.data ++ ',' :: id.data) :
    parseLedgerLine (ts ++ "," ++ id) = some id := by
  have hdata : (ts ++ "," ++ id).data = ts.data ++ ',' :: id.data := by
    simp [String.data_append]
  rw [parseLedgerLine, hdata, hstrip, splitFirstComma_append ts.data id.data hc]
  rfl

theorem mem_loadProcessedIds_of_parse (lines : List String) (line i : String)
    (hl : line ∈ lines) (hp : parseLedgerLine line = some i) :
    i ∈ loadProcessedIds lines := by
  induction lines with
  | nil => cases hl
  | cons a t ih =>
    rcases List.mem_cons.mp hl with rfl | hm
    · show i ∈ List.foldr _ [] (line :: t)
      simp only [List.foldr, hp]
      exact List.mem_cons_self _ _
    · show i ∈ List.foldr _ [] (a :: t)
      simp only [List.foldr]
      cases hpa : parseLedgerLine a
      · exact ih hm
      · exact List.mem_cons_of_mem _ (ih hm)

theorem mem_processedIds_applyMarks (ops : List (String × String))
    (st : LedgerState) (i : String) (h : i ∈ st.processedIds) :
    i ∈ (applyMarks ops st).processedIds := by
  induction ops generalizing st with
  | nil => exact h
  | cons op t ih =>
    exact ih (markProcessed op.1 op.2 st) (List.mem_cons_of_mem _ h)

theorem mem_fileLines_applyMarks (ops : List (String × String))
    (st : LedgerState) (line : String) (h : line ∈ st.fileLines) :
    line ∈ (applyMarks ops st).fileLines := by
  induction ops generalizing st with
  | nil => exact h
  | cons op t ih =>
    exact ih (markProcessed op.1 op.2 st) (List.mem_append_left _ h)

/-- C5 (amended).  Dedup round-trip for ids whose ledger line survives
the reload parser: for a timestamp with no comma and a line that
`line.strip()` leaves intact (in particular the id carries no leading or
trailing whitespace; ids with a newline are excluded because one ledger
line holds one id), after `_mark_processed(id)` the id is in the
in-memory set, remains there after any number of further
`_mark_processed` calls, and is recovered by `_load_processed_ids` from
the ledger lines after a simulated restart.  (For an id with edge
whitespace the restart half fails; see the counterexample.) -/
theorem dedup_roundTrip (ts id : String) (st : LedgerState)
    (ops : List (String × String))
    (hc : ',' ∉ ts.data)
    (hstrip : pyStripL (ts.data ++ ',' :: id.data) = ts.data ++ ',' :: id.data)
    (hn1 : '\n' ∉ ts.data) (hn2 : '\n' ∉ id.data) :
    id ∈ (markProcessed ts id st).processedIds ∧
    id ∈ (applyMarks ops (markProcessed ts id st)).processedIds ∧
    id ∈ loadProcessedIds (applyMarks ops (markProcessed ts id st)).fileLines := by
  refine ⟨List.mem_cons_self _ _, ?_, ?_⟩
  · exact mem_processedIds_applyMarks ops _ id (List.mem_cons_self _ _)
  · refine mem_loadProcessedIds_of_parse _ (ts ++ "," ++ id) id ?_
      (parseLedgerLine_well_formed ts id hc hstrip)
    refine mem_fileLines_applyMarks ops _ _ ?_
    exact List.mem_append_right _ (List.mem_singleton.mpr rfl)

/-- Witness for `dedup_roundTrip` at a concrete timestamp and id. -/
theorem dedup_roundTrip_witness :
    "42" ∈ (markProcessed "2024-01-01T00:00:00" "42"
      (LedgerState.mk [] [])).processedIds ∧
    "42" ∈ (applyMarks [("2024-01-02T00:00:00", "43")]
      (markProcessed "2024-01-01T00:00:00" "42"
        (LedgerState.mk [] []))).processedIds ∧
    "42" ∈ loadProcessedIds (applyMarks [("2024-01-02T00:00:00", "43")]
      (markProcessed "2024-01-01T00:00:00" "42"
        (LedgerState.mk [] []))).fileLines :=
  dedup_roundTrip "2024-01-01T00:00:00" "42" (LedgerState.mk [] [])
    [("2024-01-02T00:00:00", "43")] (by decide) (by decide) (by decide) (by decide)

/-- C5 counterexample.  The id consisting of a single space contains no
newline; after `record` it is a member of the in-memory set, so `has`
holds for the process lifetime, but reloading the ledger yields the
empty string instead of the id, because `_load_processed_ids` strips
each whole line before splitting — the round-trip fails after the
simulated restart. -/
theorem dedup_roundTrip_fails_for_space_id :
    '\n' ∉ " ".data ∧
    " " ∈ (markProcessed "2024-01-01T00:00:00" " "
      (LedgerState.mk [] [])).processedIds ∧
    " " ∉ loadProcessedIds (markProcessed "2024-01-01T00:00:00" " "
      (LedgerState.mk [] [])).fileLines := by
  decide

theorem processCycle_processedIds (ts : String) (st : LedgerState)
    (batch : List (String × Bool)) :
    (processCycle ts st batch).1.processedIds =
      (((processCycle ts st batch).2.filter fun x => x.2).map Prod.fst).reverse ++
        st.processedIds := by
  induction batch generalizing st with
  | nil => simp [processCycle]
  | cons p rest ih =>
    obtain ⟨id0, ok⟩ := p
    by_cases hm : id0 ∈ st.processedIds
    · simpa [processCycle, hm] using ih st
    · cases ok
      · simp [processCycle, hm]
      · simp only [processCycle, if_neg hm, if_true]
        rw [ih (markProcessed ts id0 st)]
        simp [markProcessed]

theorem processCycle_fileLines (ts : String) (st : LedgerState)
    (batch : List (String × Bool)) :
    (processCycle ts st batch).1.fileLines =
      st.fileLines ++
        (((processCycle ts st batch).2.filter fun x => x.2).map
          fun x => ts ++ "," ++ x.1) := by
  induction batch generalizing st with
  | nil => simp [processCycle]
  | cons p rest ih =>
    obtain ⟨id0, ok⟩ := p
    by_cases hm : id0 ∈ st.processedIds
    · simpa [processCycle, hm] using ih st
    · cases ok
      · simp [processCycle, hm]
      · simp only [processCycle, if_neg hm, if_true]
        rw [ih (markProcessed ts id0 st)]
        simp [markProcessed]

theorem processCycle_failSplit (ts : String) (st : LedgerState)
    (batch : List (String × Bool)) (l₁ : List (String × Bool)) (id : String)
    (l₂ : List (String × Bool))
    (hsp : (processCycle ts st batch).2 = l₁ ++ (id, false) :: l₂) :
    l₂ = [] ∧ ∀ x ∈ l₁, x.2 = true := by
  induction batch generalizing st l₁ with
  | nil => simp [processCycle] at hsp
  | cons p rest ih =>
    obtain ⟨id0, ok⟩ := p
    by_cases hm : id0 ∈ st.processedIds
    · rw [show (processCycle ts st ((id0, ok) :: rest)).2 =
        (processCycle ts st rest).2 by simp [processCycle, hm]] at hsp
      exact ih st l₁ hsp
    · cases ok
      · rw [show (processCycle ts st ((id0, false) :: rest)).2 = [(id0, false)] by
          simp [processCycle, hm]] at hsp
        match l₁, hsp with
        | [], hsp =>
          refine ⟨?_, by simp⟩
          exact ((List.cons.injEq _ _ _ _).mp hsp).2.symm
        | a :: t, hsp =>
          exfalso
          have := ((List.cons.injEq _ _ _ _).mp hsp).2
          exact List.noConfusion ((List.append_eq_nil).mp this.symm).2
      · rw [show (processCycle ts st ((id0, true) :: rest)).2 =
          (id0, true) :: (processCycle ts (markProcessed ts id0 st) rest).2 by
            simp [processCycle, hm]] at hsp
        match l₁, hsp with
        | [], hsp =>
          exact absurd ((List.cons.injEq _ _ _ _).mp hsp).1 (by simp)
        | a :: t, hsp =>
          obtain ⟨ha, hrest⟩ := (List.cons.injEq _ _ _ _).mp hsp
          obtain ⟨h2, h3⟩ := ih (markProcessed ts id0 st) t hrest
          refine ⟨h2, ?_⟩
          intro x hx
          rcases List.mem_cons.mp hx with rfl | hxm
          · rw [← ha]
          · exact h3 x hxm

/-- C7.  Fail-fast within a cycle: in the send trace of one
`process_emails` cycle every entry preceding a failed send is a
successful send and nothing follows a failed send — so once an item's
send fails, no later item of the batch is dispatched; and the dedup
state gained exactly the successful sends, both in the in-memory set and
as ledger lines, so neither the failed item nor any later item is
recorded.  In particular for a batch of three items whose second send
fails, exactly one new ledger entry (the first item) exists afterwards
(see the witness). -/
theorem processCycle_failFast (ts : String) (st : LedgerState)
    (batch : List (String × Bool)) :
    (∀ (l₁ : List (String × Bool)) (id : String) l₂,
      (processCycle ts st batch).2 = l₁ ++ (id, false) :: l₂ →
      l₂ = [] ∧ ∀ x ∈ l₁, x.2 = true) ∧
    (processCycle ts st batch).1.processedIds =
      (((processCycle ts st batch).2.filter fun x => x.2).map Prod.fst).reverse ++
        st.processedIds ∧
    (processCycle ts st batch).1.fileLines =
      st.fileLines ++
        (((processCycle ts st batch).2.filter fun x => x.2).map
          fun x => ts ++ "," ++ x.1) :=
  ⟨fun l₁ id l₂ h => processCycle_failSplit ts st batch l₁ id l₂ h,
   processCycle_processedIds ts st batch,
   processCycle_fileLines ts st batch⟩

/-- Witness for `processCycle_failFast`: the three-item scenario in
which item 2 fails — item 3 is never dispatched, and exactly one ledger
entry (item 1) is recorded. -/
theorem processCycle_failFast_witness :
    ((processCycle "t" (LedgerState.mk [] [])
        [("e1", true), ("e2", false), ("e3", true)]).1.fileLines = ["t,e1"] ∧
      (processCycle "t" (LedgerState.mk [] [])
        [("e1", true), ("e2", false), ("e3", true)]).1.processedIds = ["e1"] ∧
      (processCycle "t" (LedgerState.mk [] [])
        [("e1", true), ("e2", false), ("e3", true)]).2 =
        [("e1", true), ("e2", false)]) ∧
    (([] : List (String × Bool)) = [] ∧
      ∀ x ∈ [(("e1" : String), true)], x.2 = true) :=
  ⟨by decide,
   (processCycle_failFast "t" (LedgerState.mk [] [])
      [("e1", true), ("e2", false), ("e3", true)]).1
     [("e1", true)] "e2" [] (by decide)⟩

theorem processCycle_skips_processed (ts : String) (st : LedgerState)
    (batch : List (String × Bool)) (id : String) (h : id ∈ st.processedIds) :
    id ∉ ((processCycle ts st batch).2.map Prod.fst) := by
  induction batch generalizing st with
  | nil => simp [processCycle]
  | cons p rest ih =>
    obtain ⟨id0, ok⟩ := p
    by_cases hm : id0 ∈ st.processedIds
    · rw [show (processCycle ts st ((id0, ok) :: rest)).2 =
        (processCycle ts st rest).2 by simp [processCycle, hm]]
      exact ih st h
    · have hne : id ≠ id0 := fun e => hm (e ▸ h)
      cases ok
      · rw [show (processCycle ts st ((id0, false) :: rest)).2 = [(id0, false)] by
          simp [processCycle, hm]]
        simpa using hne
      · rw [show (processCycle ts st ((id0, true) :: rest)).2 =
          (id0, true) :: (processCycle ts (markProcessed ts id0 st) rest).2 by
            simp [processCycle, hm]]
        intro hmem
        rcases List.mem_cons.mp hmem with he | hmem2
        · exact hne he
        · exact ih (markProcessed ts id0 st) (List.mem_cons_of_mem _ h) hmem2

theorem processedIds_subset_processCycle (ts : String) (st : LedgerState)
    (batch : List (String × Bool)) (id : String) (h : id ∈ st.processedIds) :
    id ∈ (processCycle ts st batch).1.processedIds := by
  rw [processCycle_processedIds]
  exact List.mem_append_right _ h

theorem sent_mem_processCycle_processedIds (ts : String) (st : LedgerState)
    (batch : List (String × Bool)) (id : String)
    (h : (id, true) ∈ (processCycle ts st batch).2) :
    id ∈ (processCycle ts st batch).1.processedIds := by
  rw [processCycle_processedIds]
  refine List.mem_append_left _ ?_
  rw [List.mem_reverse]
  exact List.mem_map_of_mem Prod.fst (List.mem_filter.mpr ⟨h, rfl⟩)

theorem noResend_processCycle (ts : String) (st : LedgerState)
    (batch : List (String × Bool)) (id : String) :
    noResend id (processCycle ts st batch).2 := by
  induction batch generalizing st with
  | nil => simp [processCycle, noResend]
  | cons p rest ih =>
    obtain ⟨id0, ok⟩ := p
    by_cases hm : id0 ∈ st.processedIds
    · rw [show (processCycle ts st ((id0, ok) :: rest)).2 =
        (processCycle ts st rest).2 by simp [processCycle, hm]]
      exact ih st
    · cases ok
      · rw [show (processCycle ts st ((id0, false) :: rest)).2 = [(id0, false)] by
          simp [processCycle, hm]]
        exact ⟨fun h => absurd h.2 (by simp), trivial⟩
      · rw [show (processCycle ts st ((id0, true) :: rest)).2 =
          (id0, true) :: (processCycle ts (markProcessed ts id0 st) rest).2 by
            simp [processCycle, hm]]
        refine ⟨?_, ih (markProcessed ts id0 st)⟩
        rintro ⟨rfl, -⟩
        exact processCycle_skips_processed ts (markProcessed ts id0 st) rest id0
          (List.mem_cons_self _ _)

theorem noResend_append (id : String) (a b : List (String × Bool))
    (ha : noResend id a) (hb : noResend id b)
    (hcross : (id, true) ∈ a → id ∉ b.map Prod.fst) :
    noResend id (a ++ b) := by
  induction a with
  | nil => simpa using hb
  | cons p t ih =>
    obtain ⟨i, ok⟩ := p
    refine ⟨?_, ih ha.2 fun hm => hcross (List.mem_cons_of_mem _ hm)⟩
    rintro ⟨rfl, rfl⟩
    simp only [List.append_eq, List.map_append]
    intro hm
    rcases List.mem_append.mp hm with h1 | h2
    · exact ha.1 ⟨rfl, rfl⟩ h1
    · exact hcross (List.mem_cons_self _ _) h2

theorem monitorRun_skips_processed (ts : String) (maxN : Nat)
    (st : LedgerState) (cycles : List (List (String × Bool))) (id : String)
    (h : id ∈ st.processedIds) :
    ∀ s ∈ (monitorRun ts maxN st cycles).2, id ∉ s.map Prod.fst := by
  induction cycles generalizing st with
  | nil => simp [monitorRun]
  | cons ids more ih =>
    intro s hs
    rw [show (monitorRun ts maxN st (ids :: more)).2 =
      (processEmails ts maxN st ids).2 ::
        (monitorRun ts maxN (processEmails ts maxN st ids).1 more).2 by
          simp [monitorRun]] at hs
    rcases List.mem_cons.mp hs with rfl | hs2
    · exact processCycle_skips_processed ts st _ id h
    · exact ih (processEmails ts maxN st ids).1
        (processedIds_subset_processCycle ts st _ id h) s hs2

theorem not_mem_flatten_map (id : String) (ls : List (List (String × Bool)))
    (h : ∀ s ∈ ls, id ∉ s.map Prod.fst) :
    id ∉ ls.flatten.map Prod.fst := by
  intro hm
  obtain ⟨x, hx, hfx⟩ := List.mem_map.mp hm
  obtain ⟨s, hs, hxs⟩ := List.mem_flatten.mp hx
  exact h s hs (hfx ▸ List.mem_map_of_mem Prod.fst hxs)

theorem noResend_monitorRun (ts : String) (maxN : Nat) (st : LedgerState)
    (cycles : List (List (String × Bool))) (id : String) :
    noResend id (monitorRun ts maxN st cycles).2.flatten := by
  induction cycles generalizing st with
  | nil => simp [monitorRun, noResend]
  | cons ids more ih =>
    rw [show (monitorRun ts maxN st (ids :: more)).2 =
      (processEmails ts maxN st ids).2 ::
        (monitorRun ts maxN (processEmails ts maxN st ids).1 more).2 by
          simp [monitorRun]]
    rw [List.flatten_cons]
    refine noResend_append id _ _ (noResend_processCycle ts st _ id)
      (ih (processEmails ts maxN st ids).1) ?_
    intro hsent
    exact not_mem_flatten_map id _
      (monitorRun_skips_processed ts maxN (processEmails ts maxN st ids).1 more id
        (sent_mem_processCycle_processedIds ts st _ id hsent))

/-- C1 (amended).  Across any number of monitoring cycles, an id already
present in the loaded dedup set is never dispatched at all, and once a
dispatch of an id succeeds the id is never dispatched again in that or
any later cycle.  Only a failed dispatch leaves the id unrecorded, so
only after a failure can the same id be dispatched again (the behaviour
refuting the unconditional claim; see the counterexample). -/
theorem monitorRun_at_most_once_sent (ts : String) (maxN : Nat)
    (st : LedgerState) (cycles : List (List (String × Bool))) (id : String) :
    (id ∈ st.processedIds →
      id ∉ ((monitorRun ts maxN st cycles).2.flatten.map Prod.fst)) ∧
    noResend id (monitorRun ts maxN st cycles).2.flatten :=
  ⟨fun h => not_mem_flatten_map id _ (monitorRun_skips_processed ts maxN st cycles id h),
   noResend_monitorRun ts maxN st cycles id⟩

/-- Witness for `monitorRun_at_most_once_sent`: an id in the loaded set
is never dispatched over two concrete cycles that mention it. -/
theorem monitorRun_at_most_once_sent_witness :
    "a" ∉ ((monitorRun "t" 3 (LedgerState.mk [] ["a"])
      [[("a", true)], [("b", true)]]).2.flatten.map Prod.fst) :=
  (monitorRun_at_most_once_sent "t" 3 (LedgerState.mk [] ["a"])
    [[("a", true)], [("b", true)]] "a").1 (by decide)

/-- C1 counterexample.  With an empty dedup store, an item whose first
dispatch fails is not recorded, so the same id is dispatched again in
the next cycle: the send operation runs twice for the same source-item
id, refuting the unconditional at-most-once claim. -/
theorem monitorRun_sends_twice_after_failure :
    ((monitorRun "t" 3 (LedgerState.mk [] [])
      [[("a", false)], [("a", true)]]).2.flatten.map Prod.fst).count "a" = 2 := by
  decide

theorem mem_replaceChar (k : Char) (r s : List Char) (c : Char)
    (h : c ∈ replaceChar k r s) : c ∈ r ∨ (c ∈ s ∧ c ≠ k) := by
  obtain ⟨a, ha, hc⟩ := List.mem_flatMap.mp h
  by_cases hak : a = k
  · rw [if_pos hak] at hc
    exact Or.inl hc
  · rw [if_neg hak] at hc
    rw [List.mem_singleton.mp hc]
    exact Or.inr ⟨ha, hak⟩

theorem replaceChar_eq_self (k : Char) (r s : List Char) (h : k ∉ s) :
    replaceChar k r s = s := by
  induction s with
  | nil => rfl
  | cons a t ih =>
    have hak : ¬ a = k := fun e => h (e ▸ List.mem_cons_self a t)
    show (if a = k then r else [a]) ++ replaceChar k r t = a :: t
    rw [if_neg hak, ih fun m => h (List.mem_cons_of_mem _ m)]
    rfl

theorem not_mem_applyReplacements (tbl : List (Char × List Char))
    (s : List Char) (c : Char) (hs : c ∉ s) (hr : ∀ p ∈ tbl, c ∉ p.2) :
    c ∉ applyReplacements tbl s := by
  induction tbl generalizing s with
  | nil => exact hs
  | cons p tl ih =>
    obtain ⟨k, r⟩ := p
    refine ih (replaceChar k r s) ?_ fun q hq => hr q (List.mem_cons_of_mem _ hq)
    intro hmem
    rcases mem_replaceChar k r s c hmem with h1 | h2
    · exact hr (k, r) (List.mem_cons_self _ _) h1
    · exact hs h2.1

theorem key_not_mem_applyReplacements (tbl : List (Char × List Char))
    (s : List Char) (k : Char) (r : List Char) (hk : (k, r) ∈ tbl)
    (hr : ∀ p ∈ tbl, k ∉ p.2) : k ∉ applyReplacements tbl s := by
  induction tbl generalizing s with
  | nil => cases hk
  | cons p tl ih =>
    obtain ⟨k0, r0⟩ := p
    by_cases hkk : k = k0
    · subst hkk
      refine not_mem_applyReplacements tl (replaceChar k r0 s) k ?_
        fun q hq => hr q (List.mem_cons_of_mem _ hq)
      intro hmem
      rcases mem_replaceChar k r0 s k hmem with h1 | h2
      · exact hr (k, r0) (List.mem_cons_self _ _) h1
      · exact h2.2 rfl
    · rcases List.mem_cons.mp hk with he | hm
      · exact absurd (congrArg Prod.fst he) hkk
      · exact ih (replaceChar k0 r0 s) hm fun q hq => hr q (List.mem_cons_of_mem _ hq)

theorem applyReplacements_eq_self (tbl : List (Char × List Char))
    (s : List Char) (h : ∀ p ∈ tbl, p.1 ∉ s) :
    applyReplacements tbl s = s := by
  induction tbl with
  | nil => rfl
  | cons p tl ih =>
    obtain ⟨k, r⟩ := p
    show applyReplacements tl (replaceChar k r s) = s
    rw [replaceChar_eq_self k r s (h (k, r) (List.mem_cons_self _ _))]
    exact ih fun q hq => h q (List.mem_cons_of_mem _ hq)

theorem mem_toBMP_le (s : List Char) (c : Char) (h : c ∈ toBMP s) :
    c.toNat ≤ 0xFFFF := by
  obtain ⟨a, _, hc⟩ := List.mem_map.mp h
  by_cases ha : a.toNat ≤ 0xFFFF
  · rw [if_pos ha] at hc
    exact hc ▸ ha
  · rw [if_neg ha] at hc
    rw [← hc]
    decide

theorem mem_toBMP (s : List Char) (c : Char) (h : c ∈ toBMP s) :
    c ∈ s ∨ c = '?' := by
  obtain ⟨a, ha, hc⟩ := List.mem_map.mp h
  by_cases hle : a.toNat ≤ 0xFFFF
  · rw [if_pos hle] at hc
    exact Or.inl (hc ▸ ha)
  · rw [if_neg hle] at hc
    exact Or.inr hc.symm

theorem toBMP_eq_self (s : List Char) (h : ∀ c ∈ s, c.toNat ≤ 0xFFFF) :
    toBMP s = s := by
  induction s with
  | nil => rfl
  | cons a t ih =>
    show (if a.toNat ≤ 0xFFFF then a else '?') :: toBMP t = a :: t
    rw [if_pos (h a (List.mem_cons_self a t)), ih fun c hc => h c (List.mem_cons_of_mem _ hc)]

theorem mem_pyStripL (s : List Char) (c : Char) (h : c ∈ pyStripL s) :
    c ∈ s := by
  have h1 : c ∈ s.dropWhile isPySpace :=
    (List.IsPrefix.sublist (List.rdropWhile_prefix isPySpace _)).subset h
  exact (List.IsSuffix.sublist (List.dropWhile_suffix isPySpace)).subset h1

theorem pyStripL_idem (s : List Char) : pyStripL (pyStripL s) = pyStripL s := by
  have h1 : (pyStripL s).dropWhile isPySpace = pyStripL s := by
    rw [List.dropWhile_eq_self_iff]
    intro hl
    obtain ⟨r, hr⟩ :=
      List.rdropWhile_prefix isPySpace (s.dropWhile isPySpace)
    have hlen : 0 < (s.dropWhile isPySpace).length := by
      rw [← hr, List.length_append]
      exact Nat.lt_of_lt_of_le hl (Nat.le_add_right _ _)
    have hg : (s.dropWhile isPySpace).get ⟨0, hlen⟩ = (pyStripL s).get ⟨0, hl⟩ := by
      have h2 := List.get_of_eq hr.symm ⟨0, hlen⟩
      rw [h2]
      exact List.get_append 0 hl
    rw [← hg]
    exact List.dropWhile_get_zero_not isPySpace s hlen
  show List.rdropWhile isPySpace ((pyStripL s).dropWhile isPySpace) = pyStripL s
  rw [h1]
  show List.rdropWhile isPySpace (List.rdropWhile isPySpace _) = _
  rw [List.rdropWhile_idempotent]
  rfl

theorem emojiReplacements_facts :
    ∀ p ∈ emojiReplacements,
      (∀ q ∈ emojiReplacements, p.1 ∉ q.2) ∧ p.1 ≠ '?' := by
  decide

theorem cleanMessageText_no_keys (s : List Char) :
    ∀ p ∈ emojiReplacements, p.1 ∉ cleanMessageText s := by
  intro p hp hmem
  rw [cleanMessageText] at hmem
  by_cases hs : s = []
  · rw [if_pos hs] at hmem
    cases hmem
  · rw [if_neg hs] at hmem
    have h1 := mem_pyStripL _ _ hmem
    rcases mem_toBMP _ _ h1 with h2 | h2
    · exact key_not_mem_applyReplacements emojiReplacements s p.1 p.2
        (by rwa [Prod.mk.eta]) (fun q hq => ((emojiReplacements_facts p hp).1 q hq)) h2
    · exact (emojiReplacements_facts p hp).2 h2

theorem cleanMessageText_bmp (s : List Char) :
    ∀ c ∈ cleanMessageText s, c.toNat ≤ 0xFFFF := by
  intro c hc
  rw [cleanMessageText] at hc
  by_cases hs : s = []
  · rw [if_pos hs] at hc
    cases hc
  · rw [if_neg hs] at hc
    exact mem_toBMP_le _ c (mem_pyStripL _ c hc)

theorem cleanMessageText_stripped (s : List Char) :
    pyStripL (cleanMessageText s) = cleanMessageText s := by
  rw [cleanMessageText]
  by_cases hs : s = []
  · rw [if_pos hs]
    rfl
  · rw [if_neg hs]
    exact pyStripL_idem _

/-- C10.  `_clean_message_text` is idempotent: applying it twice yields
exactly its single application, because its output is already
whitespace-trimmed, contains only characters of the Basic Multilingual
Plane (code point at most `0xFFFF`), and contains none of the emoji keys
of the static replacement table — all three output properties are part
of the statement. -/
theorem cleanMessageText_idempotent (s : List Char) :
    cleanMessageText (cleanMessageText s) = cleanMessageText s ∧
    (∀ c ∈ cleanMessageText s, c.toNat ≤ 0xFFFF) ∧
    (∀ p ∈ emojiReplacements, p.1 ∉ cleanMessageText s) ∧
    pyStripL (cleanMessageText s) = cleanMessageText s := by
  refine ⟨?_, cleanMessageText_bmp s, cleanMessageText_no_keys s,
    cleanMessageText_stripped s⟩
  by_cases ho : cleanMessageText s = []
  · rw [ho]
    rfl
  · rw [cleanMessageText, if_neg ho,
      applyReplacements_eq_self emojiReplacements _ (cleanMessageText_no_keys s),
      toBMP_eq_self _ (cleanMessageText_bmp s), cleanMessageText_stripped s]

/-- Witness for `cleanMessageText_idempotent`: idempotence at a concrete
string, and the membership parts instantiated at a concrete character of
the output. -/
theorem cleanMessageText_idempotent_witness :
    cleanMessageText (cleanMessageText " hi ".data) = cleanMessageText " hi ".data ∧
    ('h').toNat ≤ 0xFFFF :=
  ⟨(cleanMessageText_idempotent " hi ".data).1,
   (cleanMessageText_idempotent " hi ".data).2.1 'h' (by decide)⟩

end WhatMail
